import Mathlib

/-!
Verification of the AI-structure-fetch pipeline of the examredy backend
(src/services/aiService.js and the filters of src/routes/aiFetch.js),
shallowly embedded in Lean 4.
-/

/-- JSON values, as produced by JSON.parse (numbers restricted to integers,
which suffices for the studied payloads). -/
inductive Json where
  | null : Json
  | bool (b : Bool) : Json
  | num (n : Int) : Json
  | str (s : String) : Json
  | arr (xs : List Json) : Json
  | obj (fields : List (String × Json)) : Json

/-- JavaScript truthiness of a JSON value. -/
def jtruthy : Json → Bool
  | Json.null => false
  | Json.bool b => b
  | Json.num n => !(n == 0)
  | Json.str s => !(s == "")
  | Json.arr _ => true
  | Json.obj _ => true

/-- Array.isArray. -/
def Json.isArr : Json → Bool
  | Json.arr _ => true
  | _ => false

/-- Property access on a parsed JSON object (keys are unique after JSON.parse). -/
def jlookup (key : String) (fields : List (String × Json)) : Option Json :=
  (fields.find? (fun p => p.1 == key)).map Prod.snd

/-- `obj.key` when that field exists and is truthy, as used by the
`parsedData.mcqs || ...` chains in aiService.js. -/
def truthyField (key : String) (fields : List (String × Json)) : Option Json :=
  match jlookup key fields with
  | some v => if jtruthy v then some v else none
  | none => none


/-! ### String helpers mirroring the JavaScript string operations used -/

/-- ASCII lowering, the fragment of String.prototype.toLowerCase exercised
by the filters (all keywords and patterns are ASCII). -/
def lowChar (c : Char) : Char :=
  if 'A' ≤ c && c ≤ 'Z' then Char.ofNat (c.toNat + 32) else c

/-- Characters matched by the JavaScript regex class backslash-s and trimmed
by String.prototype.trim. -/
def isJsSpace (c : Char) : Bool :=
  c == ' ' || c == '\t' || c == '\n' || c == '\r' || c == '\x0b' || c == '\x0c' ||
  c.toNat == 0xa0 || c.toNat == 0x1680 || (0x2000 ≤ c.toNat && c.toNat ≤ 0x200a) ||
  c.toNat == 0x2028 || c.toNat == 0x2029 || c.toNat == 0x202f || c.toNat == 0x205f ||
  c.toNat == 0x3000 || c.toNat == 0xfeff

/-- String.prototype.trim on the character list. -/
def jsTrimL (cs : List Char) : List Char :=
  ((cs.dropWhile isJsSpace).reverse.dropWhile isJsSpace).reverse

/-- String.prototype.trim. -/
def jsTrim (s : String) : String := String.mk (jsTrimL s.toList)

/-- s.substring(0, n). -/
def jsTake (n : Nat) (s : String) : String := String.mk (s.toList.take n)

/-- s.toLowerCase(). -/
def lowerS (s : String) : String := String.mk (s.toList.map lowChar)

/-- Whether the first list is a prefix of the second (character lists). -/
def strHasPre : List Char → List Char → Bool
  | [], _ => true
  | _ :: _, [] => false
  | a :: as, b :: bs => a == b && strHasPre as bs

/-- Whether the first list occurs as a contiguous substring of the second. -/
def strHasSub (needle : List Char) : List Char → Bool
  | [] => needle.isEmpty
  | c :: rest => strHasPre needle (c :: rest) || strHasSub needle rest

/-- name.toLowerCase().includes(kw), for an (already lowercase) keyword kw. -/
def containsKw (name kw : String) : Bool := strHasSub kw.toList (lowerS name).toList

/-- name.startsWith(marker). -/
def startsWithS (marker name : String) : Bool := strHasPre marker.toList name.toList

/-! ### The placeholder regex of the routes:
`^(board|subject|chapter|class)\s+([0-9a-z])$` with the `i` flag,
applied to `name.trim()`. -/

/-- Single character of the class [0-9a-z] (after case folding). -/
def isAlnumLow (c : Char) : Bool := ('0' ≤ c && c ≤ '9') || ('a' ≤ c && c ≤ 'z')

/-- After the space run: exactly one [0-9a-z] character remains. -/
def matchRestPat : List Char → Bool
  | [] => false
  | [c] => isAlnumLow c
  | c :: rest => isJsSpace c && matchRestPat rest

/-- One or more spaces, then exactly one [0-9a-z] character. -/
def matchTailPat : List Char → Bool
  | [] => false
  | c :: rest => isJsSpace c && matchRestPat rest

/-- The four alternatives of the regex group. -/
def placeWords : List (List Char) :=
  [("board").toList, ("subject").toList, ("chapter").toList, ("class").toList]

/-- `/^(board|subject|chapter|class)\s+([0-9a-z])$/i.test(name.trim())`. -/
def isPlaceholderPat (name : String) : Bool :=
  placeWords.any fun w =>
    strHasPre w ((jsTrimL name.toList).map lowChar) &&
    matchTailPat (((jsTrimL name.toList).map lowChar).drop w.length)


/-! ### aiService.js : structural fetch (fetchAIStructure) and MCQ generation -/

/-- A structural item `{ name: ... }` as built by fetchAIStructure's final map.
`name` is a JSON value or undefined (`none`), exactly as in JavaScript, where
`{name: item.name || ...}` can store any value including undefined. -/
structure Item where
  name : Option Json

/-- Line 117 of aiService.js:
`Array.isArray(parsedData) ? parsedData : (Object.values(parsedData).find(val => Array.isArray(val)) || parsedData.items || [])`,
together with the behavior of the subsequent `data.map(...)` call:
`Object.values(null)` throws, and a truthy non-array `parsedData.items` makes
`data.map` throw; both errors are caught by the surrounding try/catch. -/
def selectData : Json → Except String (List Json)
  | Json.arr xs => Except.ok xs
  | Json.obj fields =>
      match (fields.map Prod.snd).find? Json.isArr with
      | some (Json.arr xs) => Except.ok xs
      | _ =>
        match truthyField ("items") fields with
        | some _ => Except.error ("data.map is not a function")
        | none => Except.ok []
  | Json.null => Except.error ("Cannot convert undefined or null to object")
  | _ => Except.ok []

/-- Line 56 of aiService.js:
`Array.isArray(parsedData) ? parsedData : (parsedData.mcqs || parsedData.questions || Object.values(parsedData).find(v => Array.isArray(v)) || [])`.
The selected value can be any truthy JSON value (the `mcqs`/`questions`
fields are tested for truthiness, not for being arrays). Property access on
a parsed `null` throws; that error is caught by the surrounding try/catch. -/
def selectMcqVal : Json → Except String Json
  | Json.arr xs => Except.ok (Json.arr xs)
  | Json.obj fields =>
      match truthyField ("mcqs") fields with
      | some v => Except.ok v
      | none =>
        match truthyField ("questions") fields with
        | some v => Except.ok v
        | none =>
          match (fields.map Prod.snd).find? Json.isArr with
          | some v => Except.ok v
          | none => Except.ok (Json.arr [])
  | Json.null => Except.error ("Cannot read properties of null")
  | _ => Except.ok (Json.arr [])

/-- Lines 119-125 of aiService.js: map each element of `data` to `{name: ...}`.
A string becomes its own name; an object takes `name || title || label ||
Object.values(item)[0]`; arrays are objects in JavaScript, so their first
element is taken; `null` and primitives are stringified. -/
def toItem : Json → Item
  | Json.str s => ⟨some (Json.str s)⟩
  | Json.obj fields =>
      ⟨(truthyField ("name") fields).orElse fun _ =>
        (truthyField ("title") fields).orElse fun _ =>
          (truthyField ("label") fields).orElse fun _ =>
            (fields.map Prod.snd).head?⟩
  | Json.arr xs => ⟨xs.head?⟩
  | Json.null => ⟨some (Json.str ("null"))⟩
  | Json.num n => ⟨some (Json.str (toString n))⟩
  | Json.bool b => ⟨some (Json.str (if b then ("true") else ("false")))⟩

/-- Lines 132-138 of aiService.js: the structural fallback generator. -/
def fallbackMockStructure (type context errorMsg : String) : List Item :=
  [⟨some (Json.str (("DEBUG_ERROR: ") ++ errorMsg))⟩,
   ⟨some (Json.str (("Sample ") ++ type ++ (" 1 (") ++ context ++ (")")))⟩,
   ⟨some (Json.str (("Sample ") ++ type ++ (" 2 (") ++ context ++ (")")))⟩]

/-- Lines 65-74 of aiService.js: the MCQ fallback generator, as raw records. -/
def fallbackMock (topic : String) (count : Nat) : List Json :=
  (List.range count).map fun i =>
    Json.obj
      [(("question"), Json.str (("[MOCK] ") ++ topic ++ (" practice question ") ++ toString (i + 1) ++ ("?"))),
       (("options"), Json.arr [Json.str ("Option 1"), Json.str ("Option 2"), Json.str ("Option 3"), Json.str ("Option 4")]),
       (("correct_option"), Json.num 0),
       (("explanation"), Json.str (("This is a fallback mock explanation for ") ++ topic ++ (". Please check AI API configuration."))),
       (("subject"), Json.str topic),
       (("chapter"), Json.str ("General"))]

/-- An ai_providers row as read by the services (line 9 / line 78). -/
structure Provider where
  api_key : Option String
  base_url : String
  model_name : String

/-- Outcome of the outbound HTTP call plus response-text extraction:
either axios threw, or it returned and the optional-chaining extraction
produced the text (`none` models an empty/missing text). -/
inductive Transport where
  | fail (msg : String)
  | ok (text : Option String)

/-- The external world one call observes: the active-provider query result,
the transport outcome, and the result of JSON.parse on the cleaned text
(`none` models a SyntaxError). -/
structure Env where
  provider : Option Provider
  transport : Transport
  parsed : Option Json

/-- `providerRes.rows.length === 0 || !providerRes.rows[0].api_key`
(negated): whether an active provider with a truthy credential exists. -/
def providerOk : Option Provider → Bool
  | none => false
  | some p =>
    match p.api_key with
    | none => false
    | some k => !(k == "")

/-- The body of fetchAIStructure's try block (lines 77-125): provider check,
HTTP call, text extraction, JSON.parse, shape selection, and the final map
to `{name}` items. Every `throw` becomes `Except.error`. -/
def fetchTry (env : Env) : Except String (List Item) :=
  if providerOk env.provider then
    match env.transport with
    | Transport.fail msg => Except.error msg
    | Transport.ok none => Except.error ("Empty AI response")
    | Transport.ok (some _) =>
      match env.parsed with
      | none => Except.error ("Unexpected token in JSON")
      | some j =>
        match selectData j with
        | Except.error e => Except.error e
        | Except.ok ds => Except.ok (ds.map toItem)
  else Except.error ("AI Provider not configured")

/-- fetchAIStructure (lines 76-130): the catch block replaces any error by
the structural fallback, so the function always returns a list. -/
def fetchAIStructure (env : Env) (type context : String) : List Item :=
  match fetchTry env with
  | Except.ok xs => xs
  | Except.error e => fallbackMockStructure type context e

/-- Result of generateMCQInitial: normally a list of raw records, but when
the selected value is a truthy string, `mcqs.slice(0, count)` is a string
slice and a string is returned. -/
inductive MCQOut where
  | records (xs : List Json)
  | text (s : String)

/-- The body of generateMCQInitial's try block after the provider check
(lines 19-57): HTTP call, text extraction, JSON.parse, value selection and
`mcqs.slice(0, count)`; `.slice` throws on non-array non-string values. -/
def mcqTry (env : Env) (count : Nat) : Except String MCQOut :=
  match env.transport with
  | Transport.fail msg => Except.error msg
  | Transport.ok none => Except.error ("AI Provider returned an empty response")
  | Transport.ok (some _) =>
    match env.parsed with
    | none => Except.error ("Unexpected token in JSON")
    | some j =>
      match selectMcqVal j with
      | Except.error e => Except.error e
      | Except.ok (Json.arr xs) => Except.ok (MCQOut.records (xs.take count))
      | Except.ok (Json.str s) => Except.ok (MCQOut.text (jsTake count s))
      | Except.ok _ => Except.error ("mcqs.slice is not a function")

/-- generateMCQInitial (lines 7-63): missing provider returns the mock
directly; any error inside the try block is caught and replaced by the
mock, so the call never throws. -/
def generateMCQInitial (env : Env) (topic : String) (count : Nat) : MCQOut :=
  if providerOk env.provider then
    match mcqTry env count with
    | Except.ok out => out
    | Except.error _ => MCQOut.records (fallbackMock topic count)
  else MCQOut.records (fallbackMock topic count)

/-- The failure classes enumerated by the spec for the universal safety net:
no active provider / missing credential, transport failure, empty extracted
text, JSON parse failure. -/
def failEnv (env : Env) : Prop :=
  providerOk env.provider = false ∨
  (∃ m, env.transport = Transport.fail m) ∨
  env.transport = Transport.ok none ∨
  env.parsed = none

/-! ### aiFetch.js : the per-route Domain Filters (second revision of the
route file, the one the spec describes) -/

/-- The six fetch routes of src/routes/aiFetch.js. -/
inductive Kind where
  | boards | universities | papers | subjects | chapters | streams
deriving DecidableEq

/-- An item as seen by a route: its `name` property, possibly undefined. -/
structure RItem where
  name : Option String
deriving DecidableEq

/-- `item.name || ''`. -/
def orEmpty : Option String → String
  | none => ""
  | some s => s

/-- The name each route actually examines and persists:
`(item.name || '').substring(0, 200)` for boards/universities/papers/
subjects/chapters (lines 343, 391, 428, 511, 565) and
`(item.name || '').trim().substring(0, 100)` for streams (line 468). -/
def normName (k : Kind) (o : Option String) : String :=
  match k with
  | Kind.streams => String.mk ((jsTrimL (orEmpty o).toList).take 100)
  | _ => String.mk ((orEmpty o).toList.take 200)

/-- Lines 332-336 of aiFetch.js: keywords that mark non-school boards. -/
def nonSchoolKeywords : List String :=
  [("university"), ("joint entrance"), ("entrance examination"), ("jee"), ("neet"),
   ("council of higher"), ("technical education"), ("medical"), ("engineering"),
   ("college"), ("polytechnic"), ("distance education"), ("open university"),
   ("deemed"), ("affiliated")]

/-- Whether a route keeps (persists) an item with the given examined name:
the `continue` guards of each route's loop.
boards (345-348): placeholder regex, 'placeholder' substring, DEBUG_ERROR
marker, non-school keyword; universities (392): 'university ' substring,
'placeholder', DEBUG_ERROR; papers (427-429): no guard at all;
subjects (512-513) and chapters (566-567): placeholder regex, 'placeholder',
DEBUG_ERROR; streams (469): only empty names are skipped. -/
def keep (k : Kind) (name : String) : Bool :=
  match k with
  | Kind.boards =>
      !(isPlaceholderPat name || containsKw name ("placeholder") ||
        startsWithS ("DEBUG_ERROR") name ||
        nonSchoolKeywords.any (fun kw => containsKw name kw))
  | Kind.universities =>
      !(containsKw name ("university ") || containsKw name ("placeholder") ||
        startsWithS ("DEBUG_ERROR") name)
  | Kind.papers => true
  | Kind.subjects =>
      !(isPlaceholderPat name || containsKw name ("placeholder") ||
        startsWithS ("DEBUG_ERROR") name)
  | Kind.chapters =>
      !(isPlaceholderPat name || containsKw name ("placeholder") ||
        startsWithS ("DEBUG_ERROR") name)
  | Kind.streams => !(name == "")

/-- The Domain Filter of a route: order-preserving pass over the fetched
items, normalizing each name and keeping the survivors with the name that
would be persisted. `ctx` is the request context, which the filters never
consult. -/
def filterItems (k : Kind) (_ctx : String) (items : List RItem) : List RItem :=
  items.filterMap fun it =>
    let n := normName k it.name
    if keep k n then some ⟨some n⟩ else none

/-- Maximum persisted name length per route. -/
def maxNameLen (k : Kind) : Nat :=
  match k with
  | Kind.streams => 100
  | _ => 200

/-- Modelled from the spec (section 4.4 step 3 and section 8,
"Shape-normalization completeness"): the item-array selection the spec
claims, for comparison with `selectData` / `selectMcqVal` from the source.
Priority: a bare array; then a field literally named mcqs, questions or
items; then the unique array-typed value of the object; else empty. -/
def specNormalizeSelect : Json → List Json
  | Json.arr xs => xs
  | Json.obj fields =>
      match jlookup ("mcqs") fields with
      | some (Json.arr xs) => xs
      | _ =>
        match jlookup ("questions") fields with
        | some (Json.arr xs) => xs
        | _ =>
          match jlookup ("items") fields with
          | some (Json.arr xs) => xs
          | _ =>
            match (fields.map Prod.snd).filter Json.isArr with
            | [Json.arr xs] => xs
            | _ => []
  | _ => []

/-! ### Observers and concrete inputs used by the theorems below -/

/-- Number of entries of an MCQ record's `options` field, if it is an array. -/
def optionsLen : Json → Option Nat
  | Json.obj fields =>
    match jlookup ("options") fields with
    | some (Json.arr xs) => some xs.length
    | _ => none
  | _ => none

/-- The `correct_option` field of an MCQ record, if it is a number. -/
def correctOpt : Json → Option Int
  | Json.obj fields =>
    match jlookup ("correct_option") fields with
    | some (Json.num n) => some n
    | _ => none
  | _ => none

/-- No active provider: the registry query returned zero rows. -/
def envNoProvider : Env := ⟨none, Transport.ok none, none⟩

/-- A fully successful environment delivering the parsed payload `j`. -/
def goodEnv (j : Json) : Env :=
  ⟨some ⟨some ("sk-test"), ("https://api.openai.com/v1"), ("gpt-4o")⟩,
   Transport.ok (some ("payload")),
   some j⟩

/-- A provider payload record with only 3 options and correct_option 7. -/
def badRec : Json :=
  Json.obj
    [(("question"), Json.str ("Which one?")),
     (("options"), Json.arr [Json.str ("A"), Json.str ("B"), Json.str ("C")]),
     (("correct_option"), Json.num 7),
     (("explanation"), Json.str ("E")),
     (("subject"), Json.str ("Algebra")),
     (("chapter"), Json.str ("One"))]

/-- An object with two array-valued fields and none named mcqs/questions/items. -/
def jTwoArrays : Json :=
  Json.obj [(("a"), Json.arr [Json.str ("x")]), (("b"), Json.arr [Json.str ("y")])]

/-- Eleven plain string items, one more than the count the structural prompt
requests. -/
def elevenNames : List Json :=
  (List.range 11).map fun i => Json.str (("Entry ") ++ toString (i + 1))

/-- Eight MCQ-like records, three more than a requested count of 5. -/
def eightRecords : List Json :=
  (List.range 8).map fun i =>
    Json.obj
      [(("question"), Json.str (("Q") ++ toString (i + 1))),
       (("options"), Json.arr [Json.str ("A"), Json.str ("B"), Json.str ("C"), Json.str ("D")]),
       (("correct_option"), Json.num 1)]

/-- A 101-character stream name: letter, 99 spaces, letter. Truncation to 100
characters makes it end in spaces, so a second trim pass shortens it. -/
def longStreamName : String :=
  ("a") ++ String.mk (List.replicate 99 ' ') ++ ("b")

/-- The non-school keyword list exactly as the claim states it (the source
list additionally holds entrance examination, jee, neet, and abbreviates
council of higher education to council of higher). -/
def claimNonSchoolKeywords : List String :=
  [("university"), ("joint entrance"), ("council of higher education"),
   ("technical education"), ("medical"), ("engineering"), ("college"),
   ("polytechnic"), ("distance education"), ("open university"),
   ("deemed"), ("affiliated")]

/-- The sole record of `fallbackMock ("T") 1`. -/
def mockRec0 : Json :=
  Json.obj
    [(("question"), Json.str ("[MOCK] T practice question 1?")),
     (("options"), Json.arr [Json.str ("Option 1"), Json.str ("Option 2"), Json.str ("Option 3"), Json.str ("Option 4")]),
     (("correct_option"), Json.num 0),
     (("explanation"), Json.str ("This is a fallback mock explanation for T. Please check AI API configuration.")),
     (("subject"), Json.str ("T")),
     (("chapter"), Json.str ("General"))]

/-! ## Helper lemmas -/

theorem strHasPre_iff (a : List Char) : ∀ b, strHasPre a b = true ↔ a <+: b := by
  induction a with
  | nil => intro b; simp [strHasPre]
  | cons x xs ih =>
    intro b
    cases b with
    | nil => simp [strHasPre]
    | cons y ys => simp [strHasPre, ih, List.cons_prefix_cons]

theorem strHasSub_iff (a b : List Char) : strHasSub a b = true ↔ a <:+: b := by
  induction b with
  | nil => simp [strHasSub, List.isEmpty_iff]
  | cons c rest ih => simp [strHasSub, strHasPre_iff, ih, List.infix_cons_iff]

theorem strHasSub_of_parts (pre mid post : List Char) :
    strHasSub mid (pre ++ mid ++ post) = true := by
  rw [strHasSub_iff]
  exact ⟨pre, post, rfl⟩

/-! ## Claim C10 -/

/-- C10: for every type, context, and error message, the structural fallback
generator returns exactly 3 items: the first named with the DEBUG_ERROR
prefix followed by the error message, then two sample entries embedding the
type and the context. It consults no requested count (it takes none). -/
theorem fallbackMockStructure_fixed_three (t c msg : String) :
    (fallbackMockStructure t c msg).length = 3 ∧
    (∃ rest, fallbackMockStructure t c msg =
      ⟨some (Json.str (("DEBUG_ERROR: ") ++ msg))⟩ :: rest) ∧
    (∀ it ∈ (fallbackMockStructure t c msg).tail, ∃ s, it.name = some (Json.str s) ∧
      strHasSub t.toList s.toList = true ∧ strHasSub c.toList s.toList = true) := by
  refine ⟨rfl, ⟨_, rfl⟩, ?_⟩
  intro it hit
  have h2 : it = (⟨some (Json.str (("Sample ") ++ t ++ (" 1 (") ++ c ++ (")")))⟩ : Item) ∨
      it = (⟨some (Json.str (("Sample ") ++ t ++ (" 2 (") ++ c ++ (")")))⟩ : Item) := by
    simpa [fallbackMockStructure] using hit
  have harr : ∀ a b : String,
      ((("Sample ") ++ t ++ a ++ c ++ b)).toList =
        ("Sample ").toList ++ (t.toList ++ (a.toList ++ (c.toList ++ b.toList))) := by
    intro a b
    simp [String.toList]
  rcases h2 with rfl | rfl
  · refine ⟨_, rfl, ?_, ?_⟩
    · rw [strHasSub_iff, harr]
      exact ⟨("Sample ").toList, (" 1 (").toList ++ (c.toList ++ (")").toList), by simp⟩
    · rw [strHasSub_iff, harr]
      exact ⟨("Sample ").toList ++ (t.toList ++ (" 1 (").toList), (")").toList, by simp⟩
  · refine ⟨_, rfl, ?_, ?_⟩
    · rw [strHasSub_iff, harr]
      exact ⟨("Sample ").toList, (" 2 (").toList ++ (c.toList ++ (")").toList), by simp⟩
    · rw [strHasSub_iff, harr]
      exact ⟨("Sample ").toList ++ (t.toList ++ (" 2 (").toList), (")").toList, by simp⟩

/-! ## Claim C8 -/

/-- C8: when the registry yields no active provider, or the active provider
lacks a credential (no api_key, or an empty one), fetchAIStructure returns a
non-empty list whose first element's name begins with the DEBUG_ERROR
marker. -/
theorem fetchAIStructure_debug_marker_without_provider (env : Env) (t c : String)
    (h : providerOk env.provider = false) :
    fetchAIStructure env t c ≠ [] ∧
    ∃ s rest, fetchAIStructure env t c = ⟨some (Json.str s)⟩ :: rest ∧
      startsWithS ("DEBUG_ERROR") s = true := by
  have hfe : fetchAIStructure env t c =
      fallbackMockStructure t c ("AI Provider not configured") := by
    simp [fetchAIStructure, fetchTry, h]
  rw [hfe]
  exact ⟨by simp [fallbackMockStructure], _, _, rfl, by decide⟩

/-- Witness for C8: a registry with zero active rows. -/
theorem fetchAIStructure_debug_marker_without_provider_witness :
    providerOk envNoProvider.provider = false ∧
    (fetchAIStructure envNoProvider ("boards") ("State of X") ≠ [] ∧
     ∃ s rest, fetchAIStructure envNoProvider ("boards") ("State of X") =
        ⟨some (Json.str s)⟩ :: rest ∧
       startsWithS ("DEBUG_ERROR") s = true) :=
  ⟨rfl, fetchAIStructure_debug_marker_without_provider envNoProvider
    ("boards") ("State of X") rfl⟩

/-! ## Claim C1 -/

/-- C1: on every enumerated failure inside a call — no active provider,
missing credential, HTTP/transport failure, empty extracted text, JSON
parse failure — fetchAIStructure and generateMCQInitial both return the
fallback generator's list; no such error escapes as an exception (the
embedded functions are total and produce a value in every case). -/
theorem fetch_and_mcq_fall_back_on_failure (env : Env) (t c topic : String) (n : Nat)
    (h : failEnv env) :
    (∃ msg, fetchAIStructure env t c = fallbackMockStructure t c msg) ∧
    generateMCQInitial env topic n = MCQOut.records (fallbackMock topic n) := by
  cases hp : providerOk env.provider with
  | false =>
    refine ⟨⟨("AI Provider not configured"), ?_⟩, ?_⟩
    · simp [fetchAIStructure, fetchTry, hp]
    · simp [generateMCQInitial, hp]
  | true =>
    rcases h with h | ⟨m, hm⟩ | h | h
    · rw [hp] at h; cases h
    · refine ⟨⟨m, ?_⟩, ?_⟩
      · simp [fetchAIStructure, fetchTry, hp, hm]
      · simp [generateMCQInitial, mcqTry, hp, hm]
    · refine ⟨⟨("Empty AI response"), ?_⟩, ?_⟩
      · simp [fetchAIStructure, fetchTry, hp, h]
      · simp [generateMCQInitial, mcqTry, hp, h]
    · cases htr : env.transport with
      | fail m =>
        refine ⟨⟨m, ?_⟩, ?_⟩
        · simp [fetchAIStructure, fetchTry, hp, htr]
        · simp [generateMCQInitial, mcqTry, hp, htr]
      | ok o =>
        cases o with
        | none =>
          refine ⟨⟨("Empty AI response"), ?_⟩, ?_⟩
          · simp [fetchAIStructure, fetchTry, hp, htr]
          · simp [generateMCQInitial, mcqTry, hp, htr]
        | some s =>
          refine ⟨⟨("Unexpected token in JSON"), ?_⟩, ?_⟩
          · simp [fetchAIStructure, fetchTry, hp, htr, h]
          · simp [generateMCQInitial, mcqTry, hp, htr, h]

/-- Witness for C1: the no-provider environment. -/
theorem fetch_and_mcq_fall_back_on_failure_witness :
    failEnv envNoProvider ∧
    ((∃ msg, fetchAIStructure envNoProvider ("boards") ("State of X") =
        fallbackMockStructure ("boards") ("State of X") msg) ∧
     generateMCQInitial envNoProvider ("Algebra") 5 =
        MCQOut.records (fallbackMock ("Algebra") 5)) :=
  ⟨Or.inl rfl, fetch_and_mcq_fall_back_on_failure envNoProvider
    ("boards") ("State of X") ("Algebra") 5 (Or.inl rfl)⟩

/-! ## Claim C2 -/

/-- Counterexample to C2: a provider payload holding a record with only 3
options and correct_option 7 is returned verbatim by generateMCQInitial —
the code performs no shape validation on provider records. -/
theorem mcq_malformed_record_passed_through :
    generateMCQInitial (goodEnv (Json.arr [badRec])) ("Algebra") 5 =
      MCQOut.records [badRec] ∧
    optionsLen badRec = some 3 ∧ correctOpt badRec = some 7 :=
  ⟨rfl, rfl, rfl⟩

/-- C2 as amended: only the fallback generator's records are guaranteed to
have exactly 4 options and correct_option in [0,3]; provider records are
passed through without validation (see the counterexample). -/
theorem fallbackMock_records_well_shaped (topic : String) (n : Nat) (r : Json)
    (h : r ∈ fallbackMock topic n) :
    optionsLen r = some 4 ∧ ∃ i, correctOpt r = some i ∧ 0 ≤ i ∧ i ≤ 3 := by
  rcases List.mem_map.mp h with ⟨i, _, rfl⟩
  exact ⟨rfl, 0, rfl, by norm_num, by norm_num⟩

/-- Witness for the amended C2. -/
theorem fallbackMock_records_well_shaped_witness :
    mockRec0 ∈ fallbackMock ("T") 1 ∧
    (optionsLen mockRec0 = some 4 ∧ ∃ i, correctOpt mockRec0 = some i ∧ 0 ≤ i ∧ i ≤ 3) := by
  have he : fallbackMock ("T") 1 = [mockRec0] := rfl
  have hmem : mockRec0 ∈ fallbackMock ("T") 1 := by
    rw [he]; exact List.Mem.head _
  exact ⟨hmem, fallbackMock_records_well_shaped ("T") 1 mockRec0 hmem⟩

/-! ## Claim C3 -/

/-- Counterexample to C3: on an object with two array-valued fields and no
field named mcqs/questions/items, the spec's priority order (clause (c)
requires EXACTLY one array-typed value, else empty) yields the empty
sequence, but both normalizers take the FIRST array-typed value. -/
theorem normalizer_priority_counterexample :
    selectData jTwoArrays = Except.ok [Json.str ("x")] ∧
    selectMcqVal jTwoArrays = Except.ok (Json.arr [Json.str ("x")]) ∧
    specNormalizeSelect jTwoArrays = [] :=
  ⟨rfl, rfl, rfl⟩

/-- If every value before an array-valued one fails Array.isArray, find?
returns that first array. -/
theorem find_arr_append (pre : List Json) (xs post : List Json)
    (hpre : ∀ v ∈ pre, v.isArr = false) :
    (pre ++ Json.arr xs :: post).find? Json.isArr = some (Json.arr xs) := by
  induction pre with
  | nil => rfl
  | cons a t ih =>
    have ha : a.isArr = false := hpre a (by simp)
    rw [List.cons_append, List.find?_cons_of_neg _ (by simp [ha])]
    exact ih fun v hv => hpre v (by simp [hv])

/-- C3 as amended: the structural normalizer uses a bare array directly,
otherwise the first array-typed value among the object's values, otherwise
(when the object has no truthy `items` field either) the empty sequence; it
never consults fields named mcqs or questions. The MCQ normalizer uses a
bare array, else a truthy `mcqs` field, else a truthy `questions` field
(each by truthiness, not array-ness), else the first array-typed value,
else the empty sequence. -/
theorem normalizer_actual_selection :
    (∀ xs, selectData (Json.arr xs) = Except.ok xs ∧
      selectMcqVal (Json.arr xs) = Except.ok (Json.arr xs)) ∧
    (∀ fields pre xs post,
      fields.map Prod.snd = pre ++ Json.arr xs :: post →
      (∀ v ∈ pre, v.isArr = false) →
      selectData (Json.obj fields) = Except.ok xs) ∧
    (∀ fields,
      (∀ v ∈ fields.map Prod.snd, v.isArr = false) →
      truthyField ("items") fields = none →
      selectData (Json.obj fields) = Except.ok []) ∧
    (∀ fields v, truthyField ("mcqs") fields = some v →
      selectMcqVal (Json.obj fields) = Except.ok v) ∧
    (∀ fields v, truthyField ("mcqs") fields = none →
      truthyField ("questions") fields = some v →
      selectMcqVal (Json.obj fields) = Except.ok v) ∧
    (∀ fields, truthyField ("mcqs") fields = none →
      truthyField ("questions") fields = none →
      (∀ v ∈ fields.map Prod.snd, v.isArr = false) →
      selectMcqVal (Json.obj fields) = Except.ok (Json.arr [])) := by
  refine ⟨fun xs => ⟨rfl, rfl⟩, ?_, ?_, ?_, ?_, ?_⟩
  · intro fields pre xs post hmap hpre
    have hf : (fields.map Prod.snd).find? Json.isArr = some (Json.arr xs) := by
      rw [hmap]; exact find_arr_append pre xs post hpre
    simp [selectData, hf]
  · intro fields hvals hitems
    have hf : (fields.map Prod.snd).find? Json.isArr = none :=
      List.find?_eq_none.mpr fun v hv => by simp [hvals v hv]
    simp [selectData, hf, hitems]
  · intro fields v hmcqs
    simp [selectMcqVal, hmcqs]
  · intro fields v hmcqs hq
    simp [selectMcqVal, hmcqs, hq]
  · intro fields hmcqs hq hvals
    have hf : (fields.map Prod.snd).find? Json.isArr = none :=
      List.find?_eq_none.mpr fun v hv => by simp [hvals v hv]
    simp [selectMcqVal, hmcqs, hq, hf]

/-- Witness for the amended C3, exercising all six clauses. -/
theorem normalizer_actual_selection_witness :
    (selectData (Json.arr [Json.str ("x")]) = Except.ok [Json.str ("x")] ∧
     selectMcqVal (Json.arr [Json.str ("x")]) = Except.ok (Json.arr [Json.str ("x")])) ∧
    selectData (Json.obj [(("a"), Json.str ("s")), (("b"), Json.arr [Json.num 3])]) =
      Except.ok [Json.num 3] ∧
    selectData (Json.obj [(("k"), Json.str (""))]) = Except.ok [] ∧
    selectMcqVal (Json.obj [(("mcqs"), Json.num 2)]) = Except.ok (Json.num 2) ∧
    selectMcqVal (Json.obj [(("questions"), Json.str ("q"))]) = Except.ok (Json.str ("q")) ∧
    selectMcqVal (Json.obj [(("k"), Json.num 5)]) = Except.ok (Json.arr []) := by
  refine ⟨normalizer_actual_selection.1 [Json.str ("x")], ?_, ?_, ?_, ?_, ?_⟩
  · exact normalizer_actual_selection.2.1 _ [Json.str ("s")] [Json.num 3] [] rfl
      (by simp [Json.isArr])
  · exact normalizer_actual_selection.2.2.1 _ (by simp [Json.isArr]) rfl
  · exact normalizer_actual_selection.2.2.2.1 _ (Json.num 2) rfl
  · exact normalizer_actual_selection.2.2.2.2.1 _ (Json.str ("q")) rfl rfl
  · exact normalizer_actual_selection.2.2.2.2.2 _ rfl rfl (by simp [Json.isArr])

/-! ## Claim C4 -/

/-- Counterexample to C4: the structural prompt requests exactly 10 items,
but fetchAIStructure performs no truncation — a response of 11 items is
returned whole (11 items, not 10). It takes no count parameter at all. -/
theorem structural_fetch_no_truncation :
    elevenNames.length = 11 ∧
    (fetchAIStructure (goodEnv (Json.arr elevenNames)) ("boards") ("ctx")).length = 11 :=
  ⟨rfl, rfl⟩

/-- C4 as amended: generateMCQInitial caps its result at the requested
count, preserving order (it returns the first `count` records); the
structural fetch returns every normalized item with no truncation. -/
theorem mcq_caps_structural_returns_all (env : Env) (t c topic : String) (n : Nat)
    (xs : List Json)
    (hp : providerOk env.provider = true)
    (ht : ∃ s, env.transport = Transport.ok (some s))
    (hj : env.parsed = some (Json.arr xs)) :
    generateMCQInitial env topic n = MCQOut.records (xs.take n) ∧
    fetchAIStructure env t c = xs.map toItem ∧
    (n ≤ xs.length → (xs.take n).length = n) := by
  rcases ht with ⟨s, hs⟩
  refine ⟨?_, ?_, ?_⟩
  · simp [generateMCQInitial, mcqTry, hp, hs, hj, selectMcqVal]
  · simp [fetchAIStructure, fetchTry, hp, hs, hj, selectData]
  · intro hlen
    simp [List.length_take, hlen]

/-- Witness for the amended C4: count 5 against a payload of 8 records
yields exactly the first 5. -/
theorem mcq_caps_structural_returns_all_witness :
    providerOk (goodEnv (Json.arr eightRecords)).provider = true ∧
    (∃ s, (goodEnv (Json.arr eightRecords)).transport = Transport.ok (some s)) ∧
    (goodEnv (Json.arr eightRecords)).parsed = some (Json.arr eightRecords) ∧
    (generateMCQInitial (goodEnv (Json.arr eightRecords)) ("Algebra") 5 =
        MCQOut.records (eightRecords.take 5) ∧
     fetchAIStructure (goodEnv (Json.arr eightRecords)) ("Subjects") ("ctx") =
        eightRecords.map toItem ∧
     (5 ≤ eightRecords.length → (eightRecords.take 5).length = 5)) :=
  ⟨rfl, ⟨("payload"), rfl⟩, rfl,
    mcq_caps_structural_returns_all (goodEnv (Json.arr eightRecords))
      ("Subjects") ("ctx") ("Algebra") 5 eightRecords rfl ⟨("payload"), rfl⟩ rfl⟩

/-! ## Claim C5 -/

/-- Counterexample to C5: an item with an empty name survives the boards
filter (and an item with an undefined name survives the papers filter as
the empty name) — only the streams route drops empty names. -/
theorem empty_names_survive_filters :
    filterItems Kind.boards ("ctx") [⟨some ("")⟩] = [⟨some ("")⟩] ∧
    filterItems Kind.papers ("ctx") [⟨none⟩] = [⟨some ("")⟩] := by decide

/-- C5 as amended: every name a filter lets through was truncated to the
route's cap (100 characters for streams, 200 for the rest) rather than
dropped for length, and only the streams filter guarantees non-emptiness. -/
theorem filter_output_name_bounds (k : Kind) (ctx : String) (L : List RItem) (it : RItem)
    (h : it ∈ filterItems k ctx L) :
    ∃ n, it.name = some n ∧ n.toList.length ≤ maxNameLen k ∧
      (k = Kind.streams → ¬ n = ("")) := by
  rcases List.mem_filterMap.mp h with ⟨a, _, hfa⟩
  simp only [filterItems] at hfa
  rcases hkeep : keep k (normName k a.name) with _ | _
  · rw [hkeep] at hfa; simp at hfa
  · rw [hkeep] at hfa
    simp only [if_true] at hfa
    cases hfa
    refine ⟨normName k a.name, rfl, ?_, ?_⟩
    · cases k <;> simp [normName, maxNameLen]
    · intro hk
      subst hk
      intro hempty
      rw [hempty] at hkeep
      exact absurd hkeep (by decide)

/-- Witness for the amended C5, at the streams kind. -/
theorem filter_output_name_bounds_witness :
    (⟨some ("Science")⟩ : RItem) ∈ filterItems Kind.streams ("ctx") [⟨some ("Science")⟩] ∧
    (∃ n, (⟨some ("Science")⟩ : RItem).name = some n ∧
      n.toList.length ≤ maxNameLen Kind.streams ∧
      (Kind.streams = Kind.streams → ¬ n = (""))) := by
  have hmem : (⟨some ("Science")⟩ : RItem) ∈
      filterItems Kind.streams ("ctx") [⟨some ("Science")⟩] := by decide
  exact ⟨hmem, filter_output_name_bounds Kind.streams ("ctx") _ _ hmem⟩

/-! ## Claim C6 -/

/-- Counterexample to C6: the papers route applies no placeholder filter at
all, so "Board 1" is persisted there; and the boards filter's class is
[0-9a-z], narrower than the claimed backslash-w, so "board _" survives even
where the filter runs. -/
theorem placeholder_names_survive_some_filters :
    filterItems Kind.papers ("ctx") [⟨some ("Board 1")⟩] = [⟨some ("Board 1")⟩] ∧
    filterItems Kind.boards ("ctx") [⟨some ("board _")⟩] = [⟨some ("board _")⟩] := by
  decide

/-- C6 as amended: only the boards, subjects and chapters filters reject
names matching the placeholder regex (with a [0-9a-z] final token); every
item they let through has a name failing the pattern. The papers,
universities and streams routes apply no such filter. -/
theorem placeholder_pattern_dropped_in_bsc (k : Kind) (ctx : String) (L : List RItem)
    (it : RItem)
    (hk : k = Kind.boards ∨ k = Kind.subjects ∨ k = Kind.chapters)
    (h : it ∈ filterItems k ctx L) :
    ∀ n, it.name = some n → isPlaceholderPat n = false := by
  rcases List.mem_filterMap.mp h with ⟨a, _, hfa⟩
  simp only [filterItems] at hfa
  rcases hkeep : keep k (normName k a.name) with _ | _
  · rw [hkeep] at hfa; simp at hfa
  · rw [hkeep] at hfa
    simp only [if_true] at hfa
    cases hfa
    intro n hn
    cases hn
    rcases hk with rfl | rfl | rfl
    · simp [keep] at hkeep
      exact hkeep.1.1.1
    · simp [keep] at hkeep
      exact hkeep.1.1
    · simp [keep] at hkeep
      exact hkeep.1.1

/-- Witness for the amended C6, at the boards kind. -/
theorem placeholder_pattern_dropped_in_bsc_witness :
    (Kind.boards = Kind.boards ∨ Kind.boards = Kind.subjects ∨ Kind.boards = Kind.chapters) ∧
    (⟨some ("CBSE")⟩ : RItem) ∈ filterItems Kind.boards ("ctx") [⟨some ("CBSE")⟩] ∧
    isPlaceholderPat ("CBSE") = false := by
  have hmem : (⟨some ("CBSE")⟩ : RItem) ∈
      filterItems Kind.boards ("ctx") [⟨some ("CBSE")⟩] := by decide
  exact ⟨Or.inl rfl, hmem,
    placeholder_pattern_dropped_in_bsc Kind.boards ("ctx") _ _ (Or.inl rfl) hmem
      ("CBSE") rfl⟩

/-! ## Claim C7 -/

/-- A name containing one of the claim's twelve non-school keywords contains
one of the source's keywords (the source list is a superset, with
"council of higher education" abbreviated to "council of higher"). -/
theorem claimKw_implies_code_any (s : String)
    (h : claimNonSchoolKeywords.any (fun kw => containsKw s kw) = true) :
    nonSchoolKeywords.any (fun kw => containsKw s kw) = true := by
  rcases List.any_eq_true.mp h with ⟨kw, hkw, hc⟩
  simp only [claimNonSchoolKeywords, List.mem_cons, List.not_mem_nil, or_false] at hkw
  apply List.any_eq_true.mpr
  rcases hkw with rfl | rfl | rfl | rfl | rfl | rfl | rfl | rfl | rfl | rfl | rfl | rfl
  · exact ⟨("university"), by decide, hc⟩
  · exact ⟨("joint entrance"), by decide, hc⟩
  · refine ⟨("council of higher"), by decide, ?_⟩
    rw [containsKw, strHasSub_iff] at hc ⊢
    exact List.IsInfix.trans ((strHasSub_iff _ _).mp (by decide)) hc
  · exact ⟨("technical education"), by decide, hc⟩
  · exact ⟨("medical"), by decide, hc⟩
  · exact ⟨("engineering"), by decide, hc⟩
  · exact ⟨("college"), by decide, hc⟩
  · exact ⟨("polytechnic"), by decide, hc⟩
  · exact ⟨("distance education"), by decide, hc⟩
  · exact ⟨("open university"), by decide, hc⟩
  · exact ⟨("deemed"), by decide, hc⟩
  · exact ⟨("affiliated"), by decide, hc⟩

/-- C7: no item surviving the boards filter has a name containing any of the
claim's non-school keywords, and filtering the raw items
[CBSE, Delhi University, ICSE] as boards yields exactly [CBSE, ICSE]. -/
theorem boards_filter_excludes_nonschool (ctx : String) (L : List RItem) (it : RItem)
    (s : String) (h : it ∈ filterItems Kind.boards ctx L) (hn : it.name = some s) :
    claimNonSchoolKeywords.any (fun kw => containsKw s kw) = false ∧
    filterItems Kind.boards ("ctx")
      [⟨some ("CBSE")⟩, ⟨some ("Delhi University")⟩, ⟨some ("ICSE")⟩] =
      [⟨some ("CBSE")⟩, ⟨some ("ICSE")⟩] := by
  constructor
  · rcases List.mem_filterMap.mp h with ⟨a, _, hfa⟩
    simp only [filterItems] at hfa
    rcases hkeep : keep Kind.boards (normName Kind.boards a.name) with _ | _
    · rw [hkeep] at hfa; simp at hfa
    · rw [hkeep] at hfa
      simp only [if_true] at hfa
      cases hfa
      cases hn
      rcases hany : claimNonSchoolKeywords.any
          (fun kw => containsKw (normName Kind.boards a.name) kw) with _ | _
      · rfl
      · exfalso
        have hcode := claimKw_implies_code_any _ hany
        simp [keep] at hkeep
        rcases List.any_eq_true.mp hcode with ⟨kw, hkwmem, hkwc⟩
        simp [hkeep.2 kw hkwmem] at hkwc
  · decide

/-- Witness for C7: "Delhi University" never appears in a filtered boards
list; here the kept item CBSE indeed contains no claimed keyword. -/
theorem boards_filter_excludes_nonschool_witness :
    (⟨some ("CBSE")⟩ : RItem) ∈ filterItems Kind.boards ("ctx") [⟨some ("CBSE")⟩] ∧
    (claimNonSchoolKeywords.any (fun kw => containsKw ("CBSE") kw) = false ∧
     filterItems Kind.boards ("ctx")
       [⟨some ("CBSE")⟩, ⟨some ("Delhi University")⟩, ⟨some ("ICSE")⟩] =
       [⟨some ("CBSE")⟩, ⟨some ("ICSE")⟩]) := by
  have hmem : (⟨some ("CBSE")⟩ : RItem) ∈
      filterItems Kind.boards ("ctx") [⟨some ("CBSE")⟩] := by decide
  exact ⟨hmem, boards_filter_excludes_nonschool ("ctx") _ _ ("CBSE") hmem rfl⟩

/-! ## Claim C9 -/

/-- Counterexample to C9: the streams filter trims AFTER truncating, so a
101-character name whose 100-character cut ends in spaces is shortened
again on a second pass — filtering twice differs from filtering once. -/
theorem streams_filter_not_idempotent :
    filterItems Kind.streams ("ctx")
        (filterItems Kind.streams ("ctx") [⟨some longStreamName⟩]) ≠
      filterItems Kind.streams ("ctx") [⟨some longStreamName⟩] := by
  decide

/-- filterMap is idempotent when its step function fixes its own output. -/
theorem filterMap_idem {α : Type} (f : α → Option α)
    (hf : ∀ a b, f a = some b → f b = some b) :
    ∀ L : List α, (L.filterMap f).filterMap f = L.filterMap f := by
  intro L
  induction L with
  | nil => rfl
  | cons a t ih =>
    rcases hfa : f a with _ | b
    · simp [List.filterMap_cons, hfa, ih]
    · simp [List.filterMap_cons, hfa, hf a b hfa, ih]

/-- Away from the streams kind, the examined name is already normalized:
truncating a truncated name changes nothing. -/
theorem normName_fix (k : Kind) (hk : ¬ k = Kind.streams) (o : Option String) :
    normName k (some (normName k o)) = normName k o := by
  cases k with
  | streams => exact absurd rfl hk
  | boards => simp [normName, orEmpty, List.take_take]
  | universities => simp [normName, orEmpty, List.take_take]
  | papers => simp [normName, orEmpty, List.take_take]
  | subjects => simp [normName, orEmpty, List.take_take]
  | chapters => simp [normName, orEmpty, List.take_take]

/-- C9 as amended: the Domain Filter is idempotent for the boards,
universities, papers, subjects and chapters kinds; the streams kind is the
exception (see the counterexample: its trim-after-truncate can shorten a
name on the second pass). -/
theorem filter_idempotent_except_streams (k : Kind) (ctx : String) (L : List RItem)
    (hk : ¬ k = Kind.streams) :
    filterItems k ctx (filterItems k ctx L) = filterItems k ctx L := by
  apply filterMap_idem
  intro a b hfa
  have hfa2 : (if keep k (normName k a.name) = true
      then some (⟨some (normName k a.name)⟩ : RItem) else none) = some b := hfa
  show (if keep k (normName k b.name) = true
      then some (⟨some (normName k b.name)⟩ : RItem) else none) = some b
  rcases hkeep : keep k (normName k a.name) with _ | _
  · rw [hkeep] at hfa2; simp at hfa2
  · rw [hkeep] at hfa2
    simp only [if_pos] at hfa2
    cases hfa2
    simp only [normName_fix k hk, hkeep, if_pos]

/-- Witness for the amended C9, at the boards kind. -/
theorem filter_idempotent_except_streams_witness :
    ¬ Kind.boards = Kind.streams ∧
    filterItems Kind.boards ("ctx")
        (filterItems Kind.boards ("ctx") [⟨some ("CBSE")⟩, ⟨none⟩]) =
      filterItems Kind.boards ("ctx") [⟨some ("CBSE")⟩, ⟨none⟩] :=
  ⟨by decide, filter_idempotent_except_streams Kind.boards ("ctx")
    [⟨some ("CBSE")⟩, ⟨none⟩] (by decide)⟩
